import Mathlib

/-!
Verification of the angular-rag repository (src/angular-docs-sitemap/generate-sitemap.js).

The script does two things in one synchronous top-level run:
1. Sitemap Producer: creates a SitemapGenerator, registers handlers for the
   crawl events add / ignore / error / done, and calls generator.start().
2. URL Extractor: reads sitemap.xml with fs.readFileSync, parses it with
   xmldom DOMParser.parseFromString, collects the textContent of every node
   returned by getElementsByTagName with argument loc, joins the collected
   strings with a newline, and writes them to angular-docs-urls.txt with
   fs.writeFileSync, logging the count.

The embedding below models:
- the DOM tree built by xmldom, its textContent and getElementsByTagName
  operations (xmldom compares the full qualified tagName, not the local name);
- xmldom DOMParser.parseFromString with its failure semantics: recoverable
  malformations (for instance unclosed tags at end of input, which are
  auto-closed with the elements already appended to their parents kept) are
  reported through the error handler only and the parse completes; an end
  tag matching its open element only up to letter case raises fatalError,
  which the default DOMHandler throws as a ParseError; an empty source
  builds no document at all, so the script crashes with a TypeError at the
  following getElementsByTagName call;
- the file system as an association list from paths to string contents, with
  readFileSync returning none for a missing file (Node raises ENOENT, which
  the spec taxonomy calls NotFoundError; the uncaught exception aborts the
  script before any write);
- the top-level statement order of the script and the Node.js event-loop rule
  that callbacks registered on the generator run only after the currently
  executing synchronous code has finished.
-/

namespace AngularRag

/-- A DOM node as xmldom builds it: an element with a qualified tag name and
a list of children, or a text node carrying character data. Attributes are
not represented: no operation of generate-sitemap.js reads them. -/
inductive XmlNode where
  | element (tagName : String) (children : List XmlNode)
  | text (data : String)

/-- A parsed document: the top-level nodes in document order, together with
the recoverable parse errors xmldom reported through its error handler while
building the tree (empty for well-formed input). -/
structure XmlDoc where
  nodes : List XmlNode
  errors : List String

mutual

/-- The textContent DOM property as xmldom implements it: the data of a text
node, and for an element the concatenation of the textContent of its
children in document order. -/
def textContent : XmlNode → String
  | XmlNode.text s => s
  | XmlNode.element _ cs => textContentList cs

/-- Concatenated textContent of a list of sibling nodes. -/
def textContentList : List XmlNode → String
  | [] => ""
  | c :: cs => textContent c ++ textContentList cs

end

mutual

/-- getElementsByTagName restricted to one node, as xmldom implements it
with visitNode: the node itself is listed first when its full qualified
tagName equals the argument (xmldom compares node.tagName, the qualified
name prefix included, not the local name), followed by the matches inside
its children, pre-order and hence in document order. -/
def getElementsByTagName (name : String) : XmlNode → List XmlNode
  | XmlNode.text _ => []
  | XmlNode.element t cs =>
      (if t = name then [XmlNode.element t cs] else []) ++ getElementsInList name cs

/-- getElementsByTagName over a list of sibling nodes, in document order.
Applied to the document children this is exactly
xmldom document.getElementsByTagName. -/
def getElementsInList (name : String) : List XmlNode → List XmlNode
  | [] => []
  | c :: cs => getElementsByTagName name c ++ getElementsInList name cs

end

/-- The chars xmldom accepts inside a qualified tag name when scanning a tag:
everything up to whitespace, a slash, or the closing angle bracket. -/
def isNameChar (c : Char) : Bool :=
  !(c = ' ' || c = '\t' || c = '\n' || c = '\r' || c = '/' || c = '>')

/-- First colon split, for the localName computation xmldom performs on a
qualified name: everything after the first colon. -/
def afterColon : List Char → Option (List Char)
  | [] => none
  | c :: rest => if c = ':' then some rest else afterColon rest

/-- The DOM localName of a qualified tag name, as xmldom computes it: the
part after the first colon when the colon occurs at a positive position,
the whole name otherwise. -/
def localName (q : String) : String :=
  match q.data with
  | [] => q
  | c :: rest =>
    if c = ':' then q
    else
      match afterColon rest with
      | some l => String.mk l
      | none => q

mutual

/-- Modelled from the spec: the selection the spec text describes, namely
all elements whose LOCAL name equals the argument, namespace and prefix
disregarded, in document order. Stated only for comparison with
getElementsByTagName, which xmldom implements by full qualified tag name. -/
def getElementsByLocalName (name : String) : XmlNode → List XmlNode
  | XmlNode.text _ => []
  | XmlNode.element t cs =>
      (if localName t = name then [XmlNode.element t cs] else []) ++
        getLocalInList name cs

/-- getElementsByLocalName over a list of sibling nodes, in document order. -/
def getLocalInList (name : String) : List XmlNode → List XmlNode
  | [] => []
  | c :: cs => getElementsByLocalName name c ++ getLocalInList name cs

end

mutual

/-- Pre-order (document-order) traversal of a node: the node itself followed
by the traversal of its children. -/
def preorder : XmlNode → List XmlNode
  | XmlNode.text s => [XmlNode.text s]
  | XmlNode.element t cs => XmlNode.element t cs :: preorderList cs

/-- Pre-order traversal of a list of sibling nodes. -/
def preorderList : List XmlNode → List XmlNode
  | [] => []
  | c :: cs => preorder c ++ preorderList cs

end

/-- Whether a node is an element whose full qualified tag name equals the
given name. -/
def isElementNamed (name : String) : XmlNode → Bool
  | XmlNode.element t _ => t = name
  | XmlNode.text _ => false

/-! ### The xmldom parser

xmldom scans the source for angle brackets: the stretch from an opening
angle bracket to the next closing one is markup, everything in between is
character data. The DOM handler pushes a frame when an element starts,
appends text to the innermost open frame, and pops a frame when an element
ends. Markup left open at end of input and end tags matching no open
element are recovered from, reported through the error handler only; an end
tag that matches the innermost open element only up to letter case is
fatal — DOMHandler.fatalError throws a ParseError out of parseFromString —
and an empty source never reaches the reader, so no document is built. -/

/-- A raw lexical token: character data, the inside of a complete piece of
markup, or markup opened by an angle bracket that never closes before the
end of input. -/
inductive RawToken where
  | textTok (s : List Char)
  | tagTok (s : List Char)
  | brokenTok (s : List Char)

/-- The scanner: mode false accumulates character data until an opening
angle bracket, mode true accumulates markup until the closing angle
bracket, mirroring the indexOf-based scanning loop of the xmldom reader.
The accumulator holds the current stretch reversed. -/
def lexAux (mode : Bool) (acc : List Char) : List Char → List RawToken
  | [] =>
    if mode then [RawToken.brokenTok acc.reverse]
    else if acc = [] then [] else [RawToken.textTok acc.reverse]
  | c :: cs =>
    if mode then
      if c = '>' then RawToken.tagTok acc.reverse :: lexAux false [] cs
      else lexAux true (c :: acc) cs
    else
      if c = '<' then
        (if acc = [] then [] else [RawToken.textTok acc.reverse]) ++ lexAux true [] cs
      else lexAux false (c :: acc) cs

/-- What a piece of markup is: an XML declaration or processing instruction,
a comment or doctype, an end tag, a self-closing element, a start tag, or
markup xmldom rejects (empty markup). -/
inductive TagKind where
  | declTag
  | openTag (name : String)
  | closeTag (name : String)
  | selfCloseTag (name : String)
  | badTag

/-- The qualified tag name at the start of a piece of markup: the longest
prefix of name characters, attributes and the rest discarded. -/
def tagNameOf (s : List Char) : String := String.mk (s.takeWhile isNameChar)

/-- Classify the inside of a piece of markup, as the xmldom reader does on
the character after the opening angle bracket. -/
def classifyTag (s : List Char) : TagKind :=
  match s with
  | [] => TagKind.badTag
  | c :: rest =>
    if c = '?' then TagKind.declTag
    else if c = '!' then TagKind.declTag
    else if c = '/' then TagKind.closeTag (tagNameOf rest)
    else if s.getLast? = some '/' then TagKind.selfCloseTag (tagNameOf s)
    else TagKind.openTag (tagNameOf s)

/-- An open element the builder has started but not yet closed: its name and
its children accumulated in reverse. xmldom appends the element to its
parent as soon as it starts, so an element left open keeps the children
parsed before the end of input. -/
structure Frame where
  name : String
  rchildren : List XmlNode

/-- Close a frame into the element node it has built. -/
def closeFrame (f : Frame) : XmlNode :=
  XmlNode.element f.name f.rchildren.reverse

/-- End-of-input recovery, inner part: the node built from the innermost
unclosed frame is attached to its parent frame, and so on outward; each
unclosed element is reported through the error handler. -/
def unwindWith (n : XmlNode) (errs : List String) : List Frame → List XmlNode → XmlDoc
  | [], roots => XmlDoc.mk (n :: roots).reverse errs.reverse
  | f :: fs, roots =>
      unwindWith (XmlNode.element f.name (n :: f.rchildren).reverse)
        (("unclosed xml tag: " ++ f.name) :: errs) fs roots

/-- End-of-input recovery: close every frame still open, innermost first. -/
def unwind (stack : List Frame) (roots : List XmlNode) (errs : List String) : XmlDoc :=
  match stack with
  | [] => XmlDoc.mk roots.reverse errs.reverse
  | f :: fs => unwindWith (closeFrame f) (("unclosed xml tag: " ++ f.name) :: errs) fs roots

/-- Case-insensitive equality of tag names: the toLowerCase comparison the
xmldom reader applies to an end tag that does not match its open element
exactly (ASCII case folding, which is what toLowerCase performs on the
ASCII tag names occurring here). -/
def eqIgnoreCase (a b : String) : Bool :=
  a.data.map Char.toLower == b.data.map Char.toLower

/-- The outcome of running the xmldom DOM builder over a token stream:
either the parse runs to completion, producing the document together with
the recoverable errors the error handler reported along the way, or the
reader calls errorHandler.fatalError, which the default DOMHandler turns
into a thrown ParseError that propagates out of parseFromString. -/
inductive BuildResult where
  | completed (d : XmlDoc)
  | fatal (msg : String)

/-- The DOM builder: consume the token stream, maintaining the stack of open
elements, the finished top-level nodes (reversed) and the recoverable
errors reported so far (reversed). Mirrors the xmldom DOM handler and the
end-tag logic of its reader: a start tag pushes, character data goes to the
innermost open element (or the document when none is open), declarations,
processing instructions, comments and doctypes build no node. An end tag
that matches the innermost open element exactly closes it; one that matches
it only up to letter case closes it and then raises fatalError, thrown as a
ParseError (the partially built document is never returned, so only the
message is kept); one that matches neither way is ignored and the open
element kept (the xmldom reader pops the frame and pushes it back), as is
an end tag with no open element at all (xmldom pops and re-pushes its
sentinel frame). -/
def build : List RawToken → List Frame → List XmlNode → List String → BuildResult
  | [], stack, roots, errs => BuildResult.completed (unwind stack roots errs)
  | t :: ts, stack, roots, errs =>
    match t with
    | RawToken.textTok s =>
      match stack with
      | [] => build ts [] (XmlNode.text (String.mk s) :: roots) errs
      | f :: fs =>
          build ts (Frame.mk f.name (XmlNode.text (String.mk s) :: f.rchildren) :: fs) roots errs
    | RawToken.brokenTok _ => build ts stack roots ("unclosed markup" :: errs)
    | RawToken.tagTok s =>
      match classifyTag s with
      | TagKind.declTag => build ts stack roots errs
      | TagKind.badTag => build ts stack roots ("invalid markup" :: errs)
      | TagKind.openTag name => build ts (Frame.mk name [] :: stack) roots errs
      | TagKind.selfCloseTag name =>
        match stack with
        | [] => build ts [] (XmlNode.element name [] :: roots) errs
        | f :: fs =>
            build ts (Frame.mk f.name (XmlNode.element name [] :: f.rchildren) :: fs) roots errs
      | TagKind.closeTag name =>
        match stack with
        | [] => build ts [] roots errs
        | f :: fs =>
          if f.name = name then
            match fs with
            | [] => build ts [] (closeFrame f :: roots) errs
            | g :: gs => build ts (Frame.mk g.name (closeFrame f :: g.rchildren) :: gs) roots errs
          else if eqIgnoreCase f.name name then
            BuildResult.fatal
              ("end tag name: " ++ name ++ " is not match the current start tagName: " ++ f.name)
          else
            build ts (f :: fs) roots errs

/-- The result of DOMParser.parseFromString with its full xmldom failure
semantics: for an empty source nothing is parsed and no document is ever
created (parseFromString reports invalid doc source and yields no document
object, so the script crashes with a TypeError at the following
getElementsByTagName call); a fatal parse error is thrown as a ParseError;
otherwise the parse completes with the possibly error-recovered document. -/
inductive ParseAttempt where
  | noDocument
  | fatal (msg : String)
  | completed (d : XmlDoc)

/-- DOMParser.parseFromString as xmldom implements it: an empty source never
reaches the reader and builds no document; otherwise the source is scanned
and built, either to completion (recoverable errors are reported through
the error handler and the console, no exception is raised) or to a thrown
ParseError on the fatal path. -/
def parseAttempt (source : String) : ParseAttempt :=
  if source = "" then ParseAttempt.noDocument
  else
    match build (lexAux false [] source.data) [] [] [] with
    | BuildResult.completed d => ParseAttempt.completed d
    | BuildResult.fatal msg => ParseAttempt.fatal msg

/-- The document xmldom builds when the parse runs to completion. On the
two aborting paths — empty source (no document object) and fatal error
(ParseError thrown) — xmldom returns no document, and this function yields
a placeholder empty document carrying the report; runExtractor below is the
extractor model under the assumption that the parse completes, and
runExtractorExact is the model with the aborting paths included. -/
def parseFromString (source : String) : XmlDoc :=
  match parseAttempt source with
  | ParseAttempt.completed d => d
  | ParseAttempt.fatal msg => XmlDoc.mk [] [msg]
  | ParseAttempt.noDocument => XmlDoc.mk [] ["invalid doc source"]

/-! ### The file system and the extractor -/

/-- The file system visible to the script: an association list from paths to
string contents (the script reads and writes with the utf8 encoding). -/
def FS := List (String × String)

/-- fs.readFileSync: the content stored at the path, none when the file does
not exist (Node raises ENOENT there, the NotFoundError of the spec
taxonomy, and the uncaught exception aborts the script). -/
def FS.read : FS → String → Option String
  | [], _ => none
  | (q, c) :: rest, p => if q = p then some c else FS.read rest p

/-- Remove a path from the file system. -/
def FS.erase : FS → String → FS
  | [], _ => []
  | (q, c) :: rest, p => if q = p then FS.erase rest p else (q, c) :: FS.erase rest p

/-- fs.writeFileSync: create the file or overwrite its content wholesale. -/
def FS.write (fs : FS) (p c : String) : FS := (p, c) :: FS.erase fs p

/-- The path the extractor reads (line 32 of generate-sitemap.js). -/
def sitemapPath : String := "sitemap.xml"

/-- The path the extractor writes (line 44 of generate-sitemap.js). -/
def outputPath : String := "angular-docs-urls.txt"

/-- The ways the extractor step can abort: the spec taxonomy's
NotFoundError (the ENOENT that fs.readFileSync raises for a missing file)
and ParseError (the exception DOMHandler.fatalError throws on a fatal
parse error), plus the uncaught TypeError the script dies of when
parseFromString returned no document (empty source) and
xmlDoc.getElementsByTagName is called on it. -/
inductive ExtractorError where
  | notFoundError
  | parseError
  | typeError

/-- Lines 37 to 41 of generate-sitemap.js: the loop pushing
urlNodes[i].textContent for i in index order, which is document order. -/
def extractUrls (doc : XmlDoc) : List String :=
  (getElementsInList "loc" doc.nodes).map textContent

/-- Lines 32 to 45 of generate-sitemap.js, the URL Extractor step, under
the assumption that the parse completes and yields a document:
read sitemap.xml (a missing file raises ENOENT, aborting the script with
the file system untouched), parse with xmldom, collect the textContent of
the nodes returned by getElementsByTagName with argument loc, join them
with a single newline, write the result to angular-docs-urls.txt, and log
the count. The result is the reported count (or the error) together with
the file system after the step. runExtractorExact below extends this with
the two parse-aborting paths; the two agree whenever the parse completes
(runExtractorExact_completed). -/
def runExtractor (fs : FS) : Except ExtractorError Nat × FS :=
  match FS.read fs sitemapPath with
  | none => (Except.error ExtractorError.notFoundError, fs)
  | some sitemap =>
    let xmlDoc := parseFromString sitemap
    let urls := extractUrls xmlDoc
    (Except.ok urls.length, FS.write fs outputPath (String.intercalate "\n" urls))

/-- Lines 32 to 45 of generate-sitemap.js with the full xmldom failure
semantics: a missing file raises ENOENT (NotFoundError) before anything
else; an empty sitemap file makes parseFromString yield no document, so
the script crashes with an uncaught TypeError at getElementsByTagName; a
fatal parse error (an end tag matching its open element only up to letter
case) is thrown as a ParseError. In each aborting case the script dies
before fs.writeFileSync runs, leaving the file system untouched. Whenever
the parse completes — including on malformed input xmldom recovers from —
the extractor writes the newline-joined loc texts wholesale and reports
their count. -/
def runExtractorExact (fs : FS) : Except ExtractorError Nat × FS :=
  match FS.read fs sitemapPath with
  | none => (Except.error ExtractorError.notFoundError, fs)
  | some sitemap =>
    match parseAttempt sitemap with
    | ParseAttempt.noDocument => (Except.error ExtractorError.typeError, fs)
    | ParseAttempt.fatal _ => (Except.error ExtractorError.parseError, fs)
    | ParseAttempt.completed xmlDoc =>
      let urls := extractUrls xmlDoc
      (Except.ok urls.length, FS.write fs outputPath (String.intercalate "\n" urls))

/-! ### The top-level script and its execution order -/

/-- The crawl events of the sitemap-generator library the script listens to. -/
inductive CrawlEvent where
  | add
  | ignore
  | error
  | done
deriving DecidableEq

/-- The top-level statements of generate-sitemap.js, abstracted to the
actions relevant to ordering. -/
inductive Action where
  | registerHandler (e : CrawlEvent)
  | startCrawler
  | readSitemap
  | parseSitemap
  | extractLocs
  | writeOutput
  | logCount
deriving DecidableEq

/-- The statements of generate-sitemap.js in source order: the four
generator.on registrations (lines 10, 14, 18, 22), generator.start
(line 27), then the extractor statements (lines 32 to 45). The whole list
is one synchronous top-level run. -/
def script : List Action :=
  [Action.registerHandler CrawlEvent.add,
   Action.registerHandler CrawlEvent.ignore,
   Action.registerHandler CrawlEvent.error,
   Action.registerHandler CrawlEvent.done,
   Action.startCrawler,
   Action.readSitemap,
   Action.parseSitemap,
   Action.extractLocs,
   Action.writeOutput,
   Action.logCount]

/-- One step of an execution: a top-level statement of the script, or the
delivery of a crawl event to its handler. -/
inductive Step where
  | action (a : Action)
  | event (e : CrawlEvent)

/-- An execution of the script under the Node.js event loop: generator.start
only initiates the asynchronous crawl, and callbacks run only after the
currently executing synchronous code has finished, so every execution is
the synchronous top-level statements in source order followed by the crawl
events in whatever order the crawler emits them. -/
def executionTrace (events : List CrawlEvent) : List Step :=
  script.map Step.action ++ events.map Step.event

/-! ### Synthetic sitemap documents

A minimal well-formed sitemap embedding a list of strings as the loc
values, used for the round-trip and edge-case properties. -/

/-- One url entry of a minimal sitemap, with the given loc text. -/
def locEntry (u : String) : String := "<url><loc>" ++ u ++ "</loc></url>"

/-- The concatenated url entries of a minimal sitemap. -/
def entriesStr : List String → String
  | [] => ""
  | u :: us => locEntry u ++ entriesStr us

/-- A minimal well-formed sitemap document embedding the given strings as
the loc values in order. -/
def mkSitemap (urls : List String) : String :=
  "<urlset>" ++ entriesStr urls ++ "</urlset>"

/-- A string that can sit verbatim as character data of an XML element:
it contains no opening angle bracket (which would start markup) and no
ampersand (which xmldom would treat as an entity reference). -/
def xmlSafe (u : String) : Bool :=
  u.data.all (fun c => !(c = '<' || c = '&'))

/-- The loc element a minimal entry parses to: no child at all for the
empty string (xmldom creates no empty text node), one text child
otherwise. -/
def locNode (u : String) : XmlNode :=
  XmlNode.element "loc" (if u = "" then [] else [XmlNode.text u])

/-- The url element a minimal entry parses to. -/
def urlNode (u : String) : XmlNode :=
  XmlNode.element "url" [locNode u]

/-- The token stream of the concatenated url entries. -/
def entryTokens : List String → List RawToken
  | [] => []
  | u :: us =>
      RawToken.tagTok "url".data :: RawToken.tagTok "loc".data ::
        ((if u.data = [] then [] else [RawToken.textTok u.data]) ++
          (RawToken.tagTok "/loc".data :: RawToken.tagTok "/url".data :: entryTokens us))

/-! ### Lemmas about the scanner -/

theorem lexAux_text (t : List Char) : ∀ (acc cs : List Char), (∀ c ∈ t, ¬ c = '<') →
    lexAux false acc (t ++ '<' :: cs) =
      (if acc.reverse ++ t = [] then []
       else [RawToken.textTok (acc.reverse ++ t)]) ++ lexAux true [] cs := by
  induction t with
  | nil =>
    intro acc cs _
    cases acc with
    | nil => simp [lexAux]
    | cons a as => simp [lexAux]
  | cons c t ih =>
    intro acc cs h
    have hc : ¬ c = '<' := h c (by simp)
    have step : lexAux false acc (c :: (t ++ '<' :: cs)) = lexAux false (c :: acc) (t ++ '<' :: cs) := by
      simp [lexAux, hc]
    rw [List.cons_append, step, ih (c :: acc) cs (fun x hx => h x (by simp [hx]))]
    simp

theorem lex_open (z : List Char) :
    lexAux false [] ('<' :: z) = lexAux true [] z := rfl

theorem lex_urlloc (z : List Char) :
    lexAux false [] ("<url><loc>".data ++ z) =
      RawToken.tagTok "url".data :: RawToken.tagTok "loc".data :: lexAux false [] z := rfl

theorem lex_locclose (z : List Char) :
    lexAux true [] ("/loc></url>".data ++ z) =
      RawToken.tagTok "/loc".data :: RawToken.tagTok "/url".data :: lexAux false [] z := rfl

theorem lex_urlset (z : List Char) :
    lexAux false [] ("<urlset>".data ++ z) =
      RawToken.tagTok "urlset".data :: lexAux false [] z := rfl

theorem lex_entries (urls : List String) : ∀ (rest : List Char),
    (∀ u ∈ urls, xmlSafe u = true) →
    lexAux false [] ((entriesStr urls).data ++ '<' :: rest) =
      entryTokens urls ++ lexAux true [] rest := by
  induction urls with
  | nil => intro rest _; rfl
  | cons u us ih =>
    intro rest h
    have hu : ∀ c ∈ u.data, ¬ c = '<' := by
      intro c hc
      have := h u (by simp)
      rw [xmlSafe, List.all_eq_true] at this
      have h2 := this c hc
      simp at h2
      exact h2.1
    have hsplit : ("</loc></url>" : String).data = '<' :: ("/loc></url>" : String).data := rfl
    show lexAux false [] ((locEntry u ++ entriesStr us).data ++ '<' :: rest) = _
    rw [String.data_append, List.append_assoc]
    show lexAux false []
        (("<url><loc>" ++ u ++ "</loc></url>").data ++ ((entriesStr us).data ++ '<' :: rest)) = _
    rw [String.data_append, String.data_append, List.append_assoc, List.append_assoc,
      lex_urlloc]
    rw [hsplit, List.cons_append,
      lexAux_text u.data [] _ hu, lex_locclose, ih rest (fun x hx => h x (by simp [hx]))]
    simp [entryTokens]

theorem lex_mkSitemap (urls : List String) (h : ∀ u ∈ urls, xmlSafe u = true) :
    lexAux false [] (mkSitemap urls).data =
      RawToken.tagTok "urlset".data :: (entryTokens urls ++ [RawToken.tagTok "/urlset".data]) := by
  have htrail : ("</urlset>" : String).data = '<' :: ("/urlset>" : String).data := rfl
  have hclose : lexAux true [] ("/urlset>" : String).data = [RawToken.tagTok "/urlset".data] := rfl
  show lexAux false [] (("<urlset>" ++ entriesStr urls ++ "</urlset>").data) = _
  rw [String.data_append, String.data_append, List.append_assoc, lex_urlset, htrail,
    lex_entries urls _ h, hclose]

/-! ### Lemmas about the builder -/

theorem build_entry (u : String) (ts : List RawToken) (n : String) (rch roots : List XmlNode)
    (errs : List String) :
    build (RawToken.tagTok "url".data :: RawToken.tagTok "loc".data ::
        ((if u.data = [] then [] else [RawToken.textTok u.data]) ++
          (RawToken.tagTok "/loc".data :: RawToken.tagTok "/url".data :: ts)))
      [Frame.mk n rch] roots errs =
    build ts [Frame.mk n (urlNode u :: rch)] roots errs := by
  by_cases h : u.data = []
  · have hu : u = "" := String.ext (by rw [h])
    subst hu
    rfl
  · have hu : ¬ u = "" := by
      intro e; rw [e] at h; exact h rfl
    rw [if_neg h]
    show build (RawToken.tagTok "url".data :: RawToken.tagTok "loc".data ::
        RawToken.textTok u.data :: RawToken.tagTok "/loc".data ::
        RawToken.tagTok "/url".data :: ts) [Frame.mk n rch] roots errs = _
    rw [urlNode, locNode, if_neg hu]
    rfl

theorem build_entries (urls : List String) : ∀ (ts : List RawToken) (n : String)
    (rch roots : List XmlNode) (errs : List String),
    build (entryTokens urls ++ ts) [Frame.mk n rch] roots errs =
      build ts [Frame.mk n ((urls.map urlNode).reverse ++ rch)] roots errs := by
  induction urls with
  | nil => intro ts n rch roots errs; simp [entryTokens]
  | cons u us ih =>
    intro ts n rch roots errs
    show build (RawToken.tagTok "url".data :: RawToken.tagTok "loc".data ::
        (((if u.data = [] then [] else [RawToken.textTok u.data]) ++
          (RawToken.tagTok "/loc".data :: RawToken.tagTok "/url".data :: entryTokens us)) ++ ts))
        [Frame.mk n rch] roots errs = _
    rw [List.append_assoc, List.cons_append, List.cons_append, build_entry, ih]
    simp [List.append_assoc]

/-- Parsing the minimal sitemap built from xml-safe strings yields exactly
the canonical tree, with no recoverable error. -/
theorem mkSitemap_ne_empty (urls : List String) : ¬ mkSitemap urls = "" := by
  intro h
  have h2 : (mkSitemap urls).data = [] := by rw [h]
  rw [mkSitemap, String.data_append, String.data_append] at h2
  have h3 : ("<urlset>" : String).data = '<' :: ("urlset>" : String).data := rfl
  rw [h3] at h2
  simp at h2

/-- The parse of the minimal sitemap built from xml-safe strings completes,
with exactly the canonical tree and no recoverable error. -/
theorem parseAttempt_mkSitemap (urls : List String) (h : ∀ u ∈ urls, xmlSafe u = true) :
    parseAttempt (mkSitemap urls) =
      ParseAttempt.completed
        (XmlDoc.mk [XmlNode.element "urlset" (urls.map urlNode)] []) := by
  have hb : build (lexAux false [] (mkSitemap urls).data) [] [] [] =
      BuildResult.completed (XmlDoc.mk [XmlNode.element "urlset" (urls.map urlNode)] []) := by
    rw [lex_mkSitemap urls h]
    show build (entryTokens urls ++ [RawToken.tagTok "/urlset".data])
        [Frame.mk "urlset" []] [] [] = _
    rw [build_entries]
    have hstep : ∀ (R : List XmlNode),
        build [RawToken.tagTok "/urlset".data] [Frame.mk "urlset" R] [] [] =
          BuildResult.completed (XmlDoc.mk [XmlNode.element "urlset" R.reverse] []) :=
      fun R => rfl
    rw [hstep]
    simp
  rw [parseAttempt, if_neg (mkSitemap_ne_empty urls), hb]

theorem parse_mkSitemap (urls : List String) (h : ∀ u ∈ urls, xmlSafe u = true) :
    parseFromString (mkSitemap urls) =
      XmlDoc.mk [XmlNode.element "urlset" (urls.map urlNode)] [] := by
  rw [parseFromString, parseAttempt_mkSitemap urls h]

/-! ### Lemmas about element selection -/

mutual

/-- No element anywhere inside the node has the given qualified tag name. -/
def noTagName (name : String) : XmlNode → Bool
  | XmlNode.text _ => true
  | XmlNode.element t cs => !(t = name : Bool) && noTagList name cs

/-- noTagName over a list of sibling nodes. -/
def noTagList (name : String) : List XmlNode → Bool
  | [] => true
  | c :: cs => noTagName name c && noTagList name cs

end

/-- Every node of the list is a text node. -/
def allText : List XmlNode → Bool
  | [] => true
  | XmlNode.text _ :: cs => allText cs
  | XmlNode.element _ _ :: _ => false

mutual

theorem noTagName_getElements (name : String) : ∀ (n : XmlNode),
    noTagName name n = true → getElementsByTagName name n = []
  | XmlNode.text _, _ => rfl
  | XmlNode.element t cs, h => by
      rw [noTagName, Bool.and_eq_true, Bool.not_eq_true', decide_eq_false_iff_not] at h
      rw [getElementsByTagName, if_neg h.1, noTagList_getElements name cs h.2]
      rfl

theorem noTagList_getElements (name : String) : ∀ (l : List XmlNode),
    noTagList name l = true → getElementsInList name l = []
  | [], _ => rfl
  | c :: cs, h => by
      rw [noTagList, Bool.and_eq_true] at h
      rw [getElementsInList, noTagName_getElements name c h.1,
        noTagList_getElements name cs h.2]
      rfl

end

theorem allText_getElements (name : String) : ∀ (l : List XmlNode),
    allText l = true → getElementsInList name l = []
  | [], _ => rfl
  | XmlNode.text s :: cs, h => by
      rw [getElementsInList, allText_getElements name cs (by rw [allText] at h; exact h)]
      rfl
  | XmlNode.element t ds :: cs, h => by
      rw [allText] at h
      exact absurd h (by simp)

theorem getElementsInList_append (name : String) (a b : List XmlNode) :
    getElementsInList name (a ++ b) =
      getElementsInList name a ++ getElementsInList name b := by
  induction a with
  | nil => rfl
  | cons c cs ih => rw [List.cons_append, getElementsInList, getElementsInList, ih,
      List.append_assoc]

/-! ### Well-formed sitemap documents

The shape the sitemap protocol prescribes for the part of the document the
extractor looks at: the children of the urlset root are url entries (with
possible whitespace text in between), and each url entry holds exactly one
loc element whose content is character data, plus arbitrary loc-free,
url-free siblings (lastmod, changefreq and the like). -/

/-- The url-entry children of a url element other than its loc child may be
anything that contains no loc and no url element. -/
def sideOk (ns : List XmlNode) : Bool :=
  noTagList "loc" ns && noTagList "url" ns

/-- WFItems items locs holds when items is a well-formed sequence of url
entries (with interleaved text) whose loc text contents, in document order,
are locs. -/
inductive WFItems : List XmlNode → List String → Prop where
  | nil : WFItems [] []
  | ws (s : String) {items : List XmlNode} {locs : List String} :
      WFItems items locs → WFItems (XmlNode.text s :: items) locs
  | url (u : String) (pre tcs post : List XmlNode) {items : List XmlNode}
      {locs : List String}
      (hp : sideOk pre = true) (hq : sideOk post = true)
      (ht : allText tcs = true) (hu : textContentList tcs = u)
      (h : WFItems items locs) :
      WFItems (XmlNode.element "url" (pre ++ XmlNode.element "loc" tcs :: post) :: items)
        (u :: locs)

theorem wfItems_locs {items : List XmlNode} {locs : List String} (h : WFItems items locs) :
    (getElementsInList "loc" items).map textContent = locs := by
  induction h with
  | nil => rfl
  | ws s h ih => simpa [getElementsInList, getElementsByTagName] using ih
  | url u pre tcs post hp hq ht hu h ih =>
      have hpre : getElementsInList "loc" pre = [] :=
        noTagList_getElements "loc" pre (by rw [sideOk, Bool.and_eq_true] at hp; exact hp.1)
      have hpost : getElementsInList "loc" post = [] :=
        noTagList_getElements "loc" post (by rw [sideOk, Bool.and_eq_true] at hq; exact hq.1)
      have hloc : getElementsByTagName "loc" (XmlNode.element "loc" tcs) =
          [XmlNode.element "loc" tcs] := by
        rw [getElementsByTagName, if_pos rfl, allText_getElements "loc" tcs ht]
        rfl
      rw [getElementsInList, getElementsByTagName, if_neg (by decide),
        getElementsInList_append, hpre, getElementsInList, hloc]
      simp [ih, textContent, hu, hpost]

theorem wfItems_urlCount {items : List XmlNode} {locs : List String}
    (h : WFItems items locs) :
    (getElementsInList "url" items).length = locs.length := by
  induction h with
  | nil => rfl
  | ws s h ih => simpa [getElementsInList, getElementsByTagName] using ih
  | url u pre tcs post hp hq ht hu h ih =>
      have hpre : getElementsInList "url" pre = [] :=
        noTagList_getElements "url" pre (by rw [sideOk, Bool.and_eq_true] at hp; exact hp.2)
      have hpost : getElementsInList "url" post = [] :=
        noTagList_getElements "url" post (by rw [sideOk, Bool.and_eq_true] at hq; exact hq.2)
      have hloc : getElementsByTagName "url" (XmlNode.element "loc" tcs) = [] := by
        rw [getElementsByTagName, if_neg (by decide), allText_getElements "url" tcs ht]
        rfl
      rw [getElementsInList, getElementsByTagName, if_pos rfl,
        getElementsInList_append, hpre, getElementsInList, hloc, hpost]
      simp [ih]

/-- The number of url elements of a parsed document, the N of the spec. -/
def urlElementCount (doc : XmlDoc) : Nat :=
  (getElementsInList "url" doc.nodes).length

/-! ### Extraction on the canonical minimal sitemap tree -/

theorem getElements_urlNodes (urls : List String) :
    getElementsInList "loc" (urls.map urlNode) = urls.map locNode := by
  induction urls with
  | nil => rfl
  | cons u us ih =>
    have hloc : getElementsByTagName "loc" (locNode u) = [locNode u] := by
      by_cases h : u = "" <;>
        simp [locNode, h, getElementsByTagName, getElementsInList]
    rw [List.map_cons, getElementsInList, ih]
    rw [urlNode, getElementsByTagName, if_neg (by decide), getElementsInList, hloc,
      getElementsInList]
    rfl

theorem textContent_locNode (u : String) : textContent (locNode u) = u := by
  by_cases h : u = "" <;>
    simp [locNode, h, textContent, textContentList]

theorem map_textContent_locNode (urls : List String) :
    (urls.map locNode).map textContent = urls := by
  induction urls with
  | nil => rfl
  | cons u us ih => simp only [List.map_cons, textContent_locNode u, ih]

/-- The extractor output on the minimal sitemap built from xml-safe strings
is exactly the embedded list. -/
theorem extractUrls_mkSitemap (urls : List String) (h : ∀ u ∈ urls, xmlSafe u = true) :
    extractUrls (parseFromString (mkSitemap urls)) = urls := by
  rw [extractUrls, parse_mkSitemap urls h]
  show ((getElementsByTagName "loc" (XmlNode.element "urlset" (urls.map urlNode)) ++
      getElementsInList "loc" []).map textContent) = urls
  rw [getElementsByTagName, if_neg (by decide), getElements_urlNodes]
  simp only [getElementsInList, List.append_nil]
  exact map_textContent_locNode urls

/-! ### Lemmas about the file system -/

theorem FS.read_erase_ne (p q : String) (h : ¬ p = q) : ∀ (fs : FS),
    FS.read (FS.erase fs p) q = FS.read fs q
  | [] => rfl
  | (r, c) :: rest => by
    by_cases hr : r = p
    · rw [FS.erase, if_pos hr, FS.read_erase_ne p q h rest, FS.read,
        if_neg (fun e => h (by rw [← hr, e]))]
    · rw [FS.erase, if_neg hr, FS.read, FS.read]
      by_cases hq : r = q
      · rw [if_pos hq, if_pos hq]
      · rw [if_neg hq, if_neg hq, FS.read_erase_ne p q h rest]

theorem FS.read_write_self (fs : FS) (p c : String) :
    FS.read (FS.write fs p c) p = some c := by
  rw [FS.write, FS.read, if_pos rfl]

theorem FS.read_write_ne (fs : FS) (p c q : String) (h : ¬ p = q) :
    FS.read (FS.write fs p c) q = FS.read fs q := by
  rw [FS.write, FS.read, if_neg h, FS.read_erase_ne p q h]

theorem FS.erase_erase (p : String) : ∀ (fs : FS),
    FS.erase (FS.erase fs p) p = FS.erase fs p
  | [] => rfl
  | (r, c) :: rest => by
    by_cases hr : r = p
    · rw [FS.erase, if_pos hr, FS.erase_erase p rest]
    · rw [FS.erase, if_neg hr, FS.erase, if_neg hr, FS.erase_erase p rest]

theorem FS.write_write (fs : FS) (p c c2 : String) :
    FS.write (FS.write fs p c) p c2 = FS.write fs p c2 := by
  rw [FS.write, FS.write, FS.erase, if_pos rfl, FS.erase_erase, FS.write]

/-- Shared unfolding of the completed-parse extractor model when the input
file exists: the newline-joined loc texts are written wholesale. -/
theorem runExtractor_read (fs : FS) (content : String)
    (hr : FS.read fs sitemapPath = some content) :
    runExtractor fs =
      (Except.ok (extractUrls (parseFromString content)).length,
       FS.write fs outputPath
         (String.intercalate "\n" (extractUrls (parseFromString content)))) := by
  unfold runExtractor
  rw [hr]

/-- Refinement: whenever the parse of the input completes, the exact
extractor model (with the parse-aborting paths) agrees with runExtractor. -/
theorem runExtractorExact_completed (fs : FS) (content : String) (d : XmlDoc)
    (hr : FS.read fs sitemapPath = some content)
    (hc : parseAttempt content = ParseAttempt.completed d) :
    runExtractorExact fs = runExtractor fs := by
  have hd : parseFromString content = d := by rw [parseFromString, hc]
  simp only [runExtractorExact, runExtractor, hr, hc, hd]

/-- A string consisting only of whitespace characters (spaces, tabs,
newlines, carriage returns); the empty string qualifies. -/
def isWhitespaceOnly (u : String) : Bool :=
  u.data.all (fun c => c = ' ' || c = '\t' || c = '\n' || c = '\r')

theorem whitespaceOnly_xmlSafe (u : String) (h : isWhitespaceOnly u = true) :
    xmlSafe u = true := by
  rw [isWhitespaceOnly, List.all_eq_true] at h
  rw [xmlSafe, List.all_eq_true]
  intro c hc
  have h2 := h c hc
  simp only [Bool.or_eq_true, decide_eq_true_eq] at h2
  have hne : ¬ c = '<' ∧ ¬ c = '&' := by
    rcases h2 with ((h1 | h1) | h1) | h1 <;> subst h1 <;> exact ⟨by decide, by decide⟩
  simp [hne.1, hne.2]

/-! ### Selection is exactly a qualified-name filter over document order -/

mutual

theorem getElements_eq_filter (name : String) : ∀ (n : XmlNode),
    getElementsByTagName name n = (preorder n).filter (isElementNamed name)
  | XmlNode.text s => rfl
  | XmlNode.element t cs => by
      rw [getElementsByTagName, preorder, List.filter_cons,
        getElementsList_eq_filter name cs]
      by_cases h : t = name
      · rw [if_pos h]
        have : isElementNamed name (XmlNode.element t cs) = true := by
          rw [isElementNamed, h]
          exact decide_eq_true rfl
        rw [if_pos this]
        rfl
      · rw [if_neg h]
        have : ¬ isElementNamed name (XmlNode.element t cs) = true := by
          rw [isElementNamed]
          simp [h]
        rw [if_neg this]
        rfl

theorem getElementsList_eq_filter (name : String) : ∀ (l : List XmlNode),
    getElementsInList name l = (preorderList l).filter (isElementNamed name)
  | [] => rfl
  | c :: cs => by
      rw [getElementsInList, preorderList, List.filter_append,
        getElements_eq_filter name c, getElementsList_eq_filter name cs]

end

/-! ### Concrete inputs used by the witnesses and counterexamples -/

/-- The three loc values of the spec scenario. -/
def scenarioUrls : List String :=
  ["https://angular.dev/", "https://angular.dev/guide/", "https://angular.dev/api/"]

/-- A file system holding the scenario sitemap. -/
def scenarioFS : FS := [(sitemapPath, mkSitemap scenarioUrls)]

/-- A sitemap document that is not well-formed XML: the urlset element is
never closed. -/
def malformedSitemap : String := "<urlset><url><loc>https://angular.dev/</loc></url>"

/-- A file system holding the malformed sitemap next to a pre-existing
output file. -/
def malformedFS : FS :=
  [(sitemapPath, malformedSitemap), (outputPath, "https://old.example/")]

/-- A sitemap whose end tag matches its start tag only up to letter case:
the fatal path of the xmldom reader. -/
def caseMismatchSitemap : String :=
  "<urlset><url><loc>https://angular.dev/</loc></url></URLSET>"

/-- A file system holding the case-mismatched sitemap next to a
pre-existing output file. -/
def caseMismatchFS : FS :=
  [(sitemapPath, caseMismatchSitemap), (outputPath, "https://old.example/")]

/-- A file system holding an empty sitemap file next to a pre-existing
output file. -/
def emptyContentFS : FS :=
  [(sitemapPath, ""), (outputPath, "https://old.example/")]

/-- A well-formed sitemap whose elements carry a namespace prefix, so that
every loc element has local name loc but qualified tag name sm:loc. -/
def prefixedSitemap : String :=
  "<sm:urlset xmlns:sm=\"http://www.sitemaps.org/schemas/sitemap/0.9\"><sm:url><sm:loc>https://angular.dev/</sm:loc></sm:url></sm:urlset>"

/-- A file system holding a well-formed sitemap with no loc element. -/
def emptySitemapFS : FS := [(sitemapPath, "<urlset></urlset>")]

/-- A file system with no files at all. -/
def emptyFS : FS := []

/-- A file system holding a minimal sitemap whose loc values include a
whitespace-only string and an empty string. -/
def wsFS : FS := [(sitemapPath, mkSitemap ["https://angular.dev/", " ", ""])]

/-! ### The claims -/

/-- Claim C1: for every well-formed sitemap document with N url elements
read from sitemap.xml, the extractor writes the output file with exactly
the N loc text contents, in document order, joined by single newline
characters (the empty string when N = 0), and the reported count equals N,
the number of url elements of the document. -/
theorem c1_wellformed_extraction (fs : FS) (content : String)
    (tpre items tpost : List XmlNode) (locs : List String)
    (hr : FS.read fs sitemapPath = some content)
    (hp : (parseFromString content).nodes =
      tpre ++ XmlNode.element "urlset" items :: tpost)
    (h1 : allText tpre = true) (h2 : allText tpost = true)
    (hw : WFItems items locs) :
    runExtractor fs =
      (Except.ok locs.length,
       FS.write fs outputPath (String.intercalate "\n" locs)) ∧
    locs.length = urlElementCount (parseFromString content) := by
  have hex : extractUrls (parseFromString content) = locs := by
    rw [extractUrls, hp, getElementsInList_append, allText_getElements "loc" tpre h1,
      getElementsInList, getElementsByTagName, if_neg (by decide),
      allText_getElements "loc" tpost h2]
    simpa using wfItems_locs hw
  have hcount : urlElementCount (parseFromString content) = locs.length := by
    rw [urlElementCount, hp, getElementsInList_append, allText_getElements "url" tpre h1,
      getElementsInList, getElementsByTagName, if_neg (by decide),
      allText_getElements "url" tpost h2]
    simpa using wfItems_urlCount hw
  refine ⟨?_, hcount.symm⟩
  rw [runExtractor_read fs content hr, hex]

/-- Witness for C1: the spec scenario with the three angular.dev URLs. -/
theorem c1_wellformed_extraction_witness :
    FS.read scenarioFS sitemapPath = some (mkSitemap scenarioUrls) ∧
    runExtractor scenarioFS =
      (Except.ok 3,
       FS.write scenarioFS outputPath
         "https://angular.dev/\nhttps://angular.dev/guide/\nhttps://angular.dev/api/") :=
  ⟨rfl,
    (c1_wellformed_extraction scenarioFS (mkSitemap scenarioUrls) []
      (scenarioUrls.map urlNode) [] scenarioUrls rfl rfl rfl rfl
      (WFItems.url "https://angular.dev/" [] [XmlNode.text "https://angular.dev/"] []
        rfl rfl rfl rfl
        (WFItems.url "https://angular.dev/guide/" []
          [XmlNode.text "https://angular.dev/guide/"] [] rfl rfl rfl rfl
          (WFItems.url "https://angular.dev/api/" []
            [XmlNode.text "https://angular.dev/api/"] [] rfl rfl rfl rfl
            WFItems.nil)))).1⟩

/-- Counterexample to claim C2 as stated: this input is not well-formed XML
(the urlset tag is never closed), yet its parse completes — xmldom recovers
and reports the malformation only through its error handler — so the
extractor raises no ParseError, succeeds with count 1, and overwrites the
pre-existing output file, which is therefore not left byte-identical. -/
theorem c2_malformed_counterexample :
    ¬ (parseFromString malformedSitemap).errors = [] ∧
    parseAttempt malformedSitemap =
      ParseAttempt.completed (parseFromString malformedSitemap) ∧
    (runExtractorExact malformedFS).1 = Except.ok 1 ∧
    FS.read (runExtractorExact malformedFS).2 outputPath =
      some "https://angular.dev/" ∧
    ¬ FS.read (runExtractorExact malformedFS).2 outputPath =
      some "https://old.example/" := by
  refine ⟨by decide, rfl, rfl, rfl, by decide⟩

/-- Claim C2 amended: malformed XML does not reliably cause a ParseError.
The extractor aborts with the file system untouched — no write at all, any
pre-existing output byte-identical — exactly on the two aborting paths of
xmldom's parseFromString: a fatal parse error (an end tag matching its open
element only up to letter case), thrown as a ParseError, or an empty input
file, where no document is built and the script crashes with a TypeError
before writing. On every input whose parse completes, malformed or not, the
extractor succeeds and overwrites the output file wholesale with the
newline-joined loc texts recovered from the parse. -/
theorem c2_malformed_outcome (fs : FS) (content : String)
    (hr : FS.read fs sitemapPath = some content) :
    (parseAttempt content = ParseAttempt.noDocument →
      runExtractorExact fs = (Except.error ExtractorError.typeError, fs)) ∧
    (∀ msg, parseAttempt content = ParseAttempt.fatal msg →
      runExtractorExact fs = (Except.error ExtractorError.parseError, fs)) ∧
    (∀ d, parseAttempt content = ParseAttempt.completed d →
      runExtractorExact fs =
        (Except.ok (extractUrls d).length,
         FS.write fs outputPath (String.intercalate "\n" (extractUrls d)))) := by
  refine ⟨fun hc => ?_, fun msg hc => ?_, fun d hc => ?_⟩ <;>
    simp only [runExtractorExact, hr, hc]

/-- Witness for the amended C2, exercising all three paths: the ParseError
abort at the case-mismatched end tag, the TypeError abort at the empty file
(both leaving the pre-existing output untouched), and the recovery path at
the unclosed-tag input, which overwrites it. -/
theorem c2_malformed_outcome_witness :
    runExtractorExact caseMismatchFS =
      (Except.error ExtractorError.parseError, caseMismatchFS) ∧
    runExtractorExact emptyContentFS =
      (Except.error ExtractorError.typeError, emptyContentFS) ∧
    runExtractorExact malformedFS =
      (Except.ok 1, FS.write malformedFS outputPath "https://angular.dev/") :=
  ⟨(c2_malformed_outcome caseMismatchFS caseMismatchSitemap rfl).2.1
      "end tag name: URLSET is not match the current start tagName: urlset" rfl,
   (c2_malformed_outcome emptyContentFS "" rfl).1 rfl,
   (c2_malformed_outcome malformedFS malformedSitemap rfl).2.2
      (parseFromString malformedSitemap) rfl⟩

/-- Claim C3 is violated by the code: generate-sitemap.js runs the whole
extractor synchronously right after generator.start(), and the Node.js
event loop delivers the crawl events only after the synchronous top-level
run has finished, so in EVERY execution the sitemap read strictly precedes
the done event — the extractor does not wait for the crawl to finish. -/
theorem c3_extractor_runs_before_done (events : List CrawlEvent) (i j : Nat)
    (hi : (executionTrace events)[i]? = some (Step.action Action.readSitemap))
    (hj : (executionTrace events)[j]? = some (Step.event CrawlEvent.done)) :
    i < j := by
  have hi10 : i < (script.map Step.action).length := by
    by_contra hcon
    push_neg at hcon
    rw [executionTrace, List.getElem?_append_right hcon, List.getElem?_map] at hi
    obtain ⟨e, -, he⟩ := Option.map_eq_some'.mp hi
    exact Step.noConfusion he
  have hj10 : (script.map Step.action).length ≤ j := by
    by_contra hcon
    push_neg at hcon
    rw [executionTrace, List.getElem?_append, if_pos hcon, List.getElem?_map] at hj
    obtain ⟨a, -, ha⟩ := Option.map_eq_some'.mp hj
    exact Step.noConfusion ha
  exact Nat.lt_of_lt_of_le hi10 hj10

/-- Witness for C3: in the execution whose crawl emits add then done, the
sitemap read sits at trace position 5 and the done event at position 11. -/
theorem c3_extractor_runs_before_done_witness :
    (executionTrace [CrawlEvent.add, CrawlEvent.done])[5]? =
      some (Step.action Action.readSitemap) ∧
    (executionTrace [CrawlEvent.add, CrawlEvent.done])[11]? =
      some (Step.event CrawlEvent.done) ∧
    5 < 11 :=
  ⟨rfl, rfl, c3_extractor_runs_before_done [CrawlEvent.add, CrawlEvent.done] 5 11 rfl rfl⟩

/-- Claim C4: when sitemap.xml does not exist the extractor fails with the
NotFoundError of the spec taxonomy (the ENOENT that fs.readFileSync raises
aborts the script before fs.writeFileSync can run) and the file system is
left exactly as it was: the output file is neither created nor modified. -/
theorem c4_missing_input_not_found (fs : FS) (h : FS.read fs sitemapPath = none) :
    runExtractor fs = (Except.error ExtractorError.notFoundError, fs) := by
  unfold runExtractor
  rw [h]

/-- Witness for C4: the empty file system. -/
theorem c4_missing_input_not_found_witness :
    FS.read emptyFS sitemapPath = none ∧
    runExtractor emptyFS = (Except.error ExtractorError.notFoundError, emptyFS) :=
  ⟨rfl, c4_missing_input_not_found emptyFS rfl⟩

/-- Counterexample to claim C5 as stated: a well-formed document whose loc
elements carry a namespace prefix. getElementsByTagName with argument loc —
what the code runs — selects nothing, while selection by local name — what
the claim asserts — finds the loc value: the code is prefix-sensitive, not
namespace-agnostic. -/
theorem c5_local_name_counterexample :
    (parseFromString prefixedSitemap).errors = [] ∧
    extractUrls (parseFromString prefixedSitemap) = [] ∧
    (getLocalInList "loc" (parseFromString prefixedSitemap).nodes).map textContent =
      ["https://angular.dev/"] :=
  ⟨rfl, rfl, rfl⟩

/-- Claim C5 amended: the extractor selects exactly the elements whose FULL
qualified tag name equals loc — the prefix included, so a prefixed loc
element is not selected — in document order: the selection is the
qualified-name filter of the pre-order traversal of the document. -/
theorem c5_selection_by_qualified_name (doc : XmlDoc) :
    getElementsInList "loc" doc.nodes =
      (preorderList doc.nodes).filter (isElementNamed "loc") :=
  getElementsList_eq_filter "loc" doc.nodes

/-- Claim C6: an input that parses with zero loc elements is not an error:
the extractor succeeds, writes the output file as the empty string, and
reports a count of 0. -/
theorem c6_zero_locs_empty_output (fs : FS) (content : String)
    (hr : FS.read fs sitemapPath = some content)
    (hz : getElementsInList "loc" (parseFromString content).nodes = []) :
    runExtractor fs = (Except.ok 0, FS.write fs outputPath "") := by
  rw [runExtractor_read fs content hr, extractUrls, hz]
  rfl

/-- Witness for C6: a urlset with no entries at all. -/
theorem c6_zero_locs_empty_output_witness :
    FS.read emptySitemapFS sitemapPath = some "<urlset></urlset>" ∧
    getElementsInList "loc" (parseFromString "<urlset></urlset>").nodes = [] ∧
    runExtractor emptySitemapFS = (Except.ok 0, FS.write emptySitemapFS outputPath "") :=
  ⟨rfl, rfl, c6_zero_locs_empty_output emptySitemapFS "<urlset></urlset>" rfl rfl⟩

/-- Claim C7: a loc element whose text content is the empty string or
whitespace-only is still included verbatim, untrimmed and unfiltered, as
its line of the output, and the count includes it: no URL well-formedness
validation or filtering is performed. -/
theorem c7_whitespace_loc_verbatim (fs : FS) (pre post : List String) (t : String)
    (hsafe : ∀ u ∈ pre ++ t :: post, xmlSafe u = true)
    (hws : isWhitespaceOnly t = true)
    (hr : FS.read fs sitemapPath = some (mkSitemap (pre ++ t :: post))) :
    runExtractor fs =
      (Except.ok (pre ++ t :: post).length,
       FS.write fs outputPath (String.intercalate "\n" (pre ++ t :: post))) := by
  rw [runExtractor_read fs _ hr, extractUrls_mkSitemap _ hsafe]

/-- Witness for C7: a sitemap whose loc values are a URL, a single space,
and the empty string; all three appear verbatim and the count is 3. -/
theorem c7_whitespace_loc_verbatim_witness :
    isWhitespaceOnly " " = true ∧
    runExtractor wsFS =
      (Except.ok 3, FS.write wsFS outputPath "https://angular.dev/\n \n") :=
  ⟨rfl, c7_whitespace_loc_verbatim wsFS ["https://angular.dev/"] [""] " "
    (by decide) rfl rfl⟩

/-- Claim C8, round-trip: embedding any list of xml-safe URL strings as the
loc values of a minimal well-formed sitemap document and running the
extractor on it yields exactly the original strings, in the same order. -/
theorem c8_roundtrip (urls : List String) (hsafe : ∀ u ∈ urls, xmlSafe u = true) :
    extractUrls (parseFromString (mkSitemap urls)) = urls :=
  extractUrls_mkSitemap urls hsafe

/-- Witness for C8: two URLs, one with a query string. -/
theorem c8_roundtrip_witness :
    extractUrls (parseFromString
        (mkSitemap ["https://a.example/x?y=1", "https://b.example/"])) =
      ["https://a.example/x?y=1", "https://b.example/"] :=
  c8_roundtrip ["https://a.example/x?y=1", "https://b.example/"] (by decide)

/-- Claim C9: the extractor output is a pure function of the input file
bytes: two runs over any file systems holding the same sitemap.xml content
report the same count and write byte-identical output files, and re-running
the extractor on the state a run left behind reproduces that run exactly. -/
theorem c9_deterministic_idempotent (fs1 fs2 : FS) (content : String)
    (h1 : FS.read fs1 sitemapPath = some content)
    (h2 : FS.read fs2 sitemapPath = some content) :
    (runExtractor fs1).1 = (runExtractor fs2).1 ∧
    FS.read (runExtractor fs1).2 outputPath = FS.read (runExtractor fs2).2 outputPath ∧
    runExtractor ((runExtractor fs1).2) = runExtractor fs1 := by
  have e1 := runExtractor_read fs1 content h1
  have e2 := runExtractor_read fs2 content h2
  have hne : ¬ outputPath = sitemapPath := by decide
  refine ⟨by rw [e1, e2], by rw [e1, e2, FS.read_write_self, FS.read_write_self], ?_⟩
  have hsnd : (runExtractor fs1).2 =
      FS.write fs1 outputPath
        (String.intercalate "\n" (extractUrls (parseFromString content))) := by
    rw [e1]
  have hread : FS.read (FS.write fs1 outputPath
      (String.intercalate "\n" (extractUrls (parseFromString content))))
      sitemapPath = some content := by
    rw [FS.read_write_ne _ outputPath _ sitemapPath hne]
    exact h1
  have e3 := runExtractor_read _ content hread
  rw [hsnd, e3, FS.write_write, e1]

/-- Witness for C9, at the empty urlset sitemap. -/
theorem c9_deterministic_idempotent_witness :
    FS.read emptySitemapFS sitemapPath = some "<urlset></urlset>" ∧
    runExtractor ((runExtractor emptySitemapFS).2) = runExtractor emptySitemapFS :=
  ⟨rfl, (c9_deterministic_idempotent emptySitemapFS emptySitemapFS
    "<urlset></urlset>" rfl rfl).2.2⟩

/-- Claim C10: all four crawl event handlers (add, ignore, error, done)
are registered on the generator, before generator.start() — the only start
invocation — is reached, so no crawl event can be emitted before its
handler is in place. -/
theorem c10_handlers_before_start :
    (script.contains (Action.registerHandler CrawlEvent.add) = true ∧
     script.contains (Action.registerHandler CrawlEvent.ignore) = true ∧
     script.contains (Action.registerHandler CrawlEvent.error) = true ∧
     script.contains (Action.registerHandler CrawlEvent.done) = true) ∧
    script.count Action.startCrawler = 1 ∧
    List.indexOf (Action.registerHandler CrawlEvent.add) script <
      List.indexOf Action.startCrawler script ∧
    List.indexOf (Action.registerHandler CrawlEvent.ignore) script <
      List.indexOf Action.startCrawler script ∧
    List.indexOf (Action.registerHandler CrawlEvent.error) script <
      List.indexOf Action.startCrawler script ∧
    List.indexOf (Action.registerHandler CrawlEvent.done) script <
      List.indexOf Action.startCrawler script := by
  decide

end AngularRag
